import Mathlib

/- Shallow embedding of LEO/tropmodel.c over the real numbers: the
   standard-atmosphere + Saastamoinen delay model (`tropmodel`) and the
   Niell mapping function (`nmf`, `tropmapf`).  C doubles are modelled as
   reals, the C `(int)` cast as truncation toward zero, and the optional
   wet-output pointer of `nmf`/`tropmapf` as a `Bool` flag (pointer
   non-null) paired with an `Option ℝ` result component (the value stored
   through the pointer, if any). -/

noncomputable section

namespace LeoPos

/-- Modelled from the spec: an epoch is "a time instant convertible to
day-of-year; only consumed by MappingFunction for seasonal phase".  The
concrete `gtime_t` structure and the `time2doy` collaborator live outside
this module, so an epoch is represented by the day-of-year value that the
conversion returns. -/
structure gtime_t where
  doy : ℝ

/-- Modelled from the spec: day-of-year conversion from an epoch (an external
collaborator of the core; see `gtime_t`). -/
def time2doy (t : gtime_t) : ℝ := t.doy

/-- The `R2D` radians-to-degrees conversion constant of the header. -/
def R2D : ℝ := 180 / Real.pi

/-- C double-to-int cast: truncation toward zero. -/
def ctrunc (x : ℝ) : ℤ := if 0 ≤ x then ⌊x⌋ else ⌈x⌉

/-- Read a 5-entry coefficient row at an integer index (the indices the code
uses are always in bounds; the `% 5` only serves the type). -/
def get5 (coef : Fin 5 → ℝ) (n : ℤ) : ℝ :=
  coef ⟨n.toNat % 5, Nat.mod_lt _ (by norm_num)⟩

/-- `interpc` of tropmodel.c: latitude-band interpolation of a coefficient
row, with the band index truncated from `lat / 15` and the boundary rows
returned directly outside the index range `[1, 4]`. -/
def interpc (coef : Fin 5 → ℝ) (lat : ℝ) : ℝ :=
  if ctrunc (lat / 15) < 1 then coef 0
  else if 4 < ctrunc (lat / 15) then coef 4
  else
    get5 coef (ctrunc (lat / 15) - 1) * (1 - lat / 15 + (ctrunc (lat / 15) : ℝ)) +
      get5 coef (ctrunc (lat / 15)) * (lat / 15 - (ctrunc (lat / 15) : ℝ))

/-- `mapf` of tropmodel.c: the Niell continued-fraction mapping form. -/
def mapf (el a b c : ℝ) : ℝ :=
  let sinel := Real.sin el
  (1 + a / (1 + b / (1 + c))) / (sinel + a / (sinel + b / (sinel + c)))

/-- Row 0 of the `coef` table in `nmf`: hydrostatic average `a`. -/
def coefNMF0 : Fin 5 → ℝ := ![1.2769934e-3, 1.2683230e-3, 1.2465397e-3, 1.2196049e-3, 1.2045996e-3]

/-- Row 1 of the `coef` table in `nmf`: hydrostatic average `b`. -/
def coefNMF1 : Fin 5 → ℝ := ![2.9153695e-3, 2.9152299e-3, 2.9288445e-3, 2.9022565e-3, 2.9024912e-3]

/-- Row 2 of the `coef` table in `nmf`: hydrostatic average `c`. -/
def coefNMF2 : Fin 5 → ℝ := ![62.610505e-3, 62.837393e-3, 63.721774e-3, 63.824265e-3, 64.258455e-3]

/-- Row 3 of the `coef` table in `nmf`: hydrostatic seasonal amplitude `a`. -/
def coefNMF3 : Fin 5 → ℝ := ![0, 1.2709626e-5, 2.6523662e-5, 3.4000452e-5, 4.1202191e-5]

/-- Row 4 of the `coef` table in `nmf`: hydrostatic seasonal amplitude `b`. -/
def coefNMF4 : Fin 5 → ℝ := ![0, 2.1414979e-5, 3.0160779e-5, 7.2562722e-5, 11.723375e-5]

/-- Row 5 of the `coef` table in `nmf`: hydrostatic seasonal amplitude `c`. -/
def coefNMF5 : Fin 5 → ℝ := ![0, 9.0128400e-5, 4.3497037e-5, 84.795348e-5, 170.37206e-5]

/-- Row 6 of the `coef` table in `nmf`: wet average `a`. -/
def coefNMF6 : Fin 5 → ℝ := ![5.8021897e-4, 5.6794847e-4, 5.8118019e-4, 5.9727542e-4, 6.1641693e-4]

/-- Row 7 of the `coef` table in `nmf`: wet average `b`. -/
def coefNMF7 : Fin 5 → ℝ := ![1.4275268e-3, 1.5138625e-3, 1.4572752e-3, 1.5007428e-3, 1.7599082e-3]

/-- Row 8 of the `coef` table in `nmf`: wet average `c`. -/
def coefNMF8 : Fin 5 → ℝ := ![4.3472961e-2, 4.6729510e-2, 4.3908931e-2, 4.4626982e-2, 5.4736038e-2]

/-- `nmf` of tropmodel.c: Niell mapping function.  The first component of the
result is the C return value (hydrostatic/dry mapping factor); the second is
the value stored through the `mapfw` pointer, `none` when the pointer is
null (`wantWet = false`). -/
def nmf (time : gtime_t) (lat lon hgt az el : ℝ) (wantWet : Bool) : ℝ × Option ℝ :=
  if el ≤ 0 then (0, if wantWet then some 0 else none)
  else
    let latd := lat * R2D
    let y := (time2doy time - 28) / 365.25 + (if latd < 0 then 0.5 else 0)
    let cosy := Real.cos (2 * Real.pi * y)
    let latn := |latd|
    let ah0 := interpc coefNMF0 latn - interpc coefNMF3 latn * cosy
    let ah1 := interpc coefNMF1 latn - interpc coefNMF4 latn * cosy
    let ah2 := interpc coefNMF2 latn - interpc coefNMF5 latn * cosy
    let aw0 := interpc coefNMF6 latn
    let aw1 := interpc coefNMF7 latn
    let aw2 := interpc coefNMF8 latn
    let dm := (1 / Real.sin el - mapf el 2.53e-5 5.49e-3 1.14e-3) * hgt / 1000
    (mapf el ah0 ah1 ah2 + dm, if wantWet then some (mapf el aw0 aw1 aw2) else none)

/-- `tropmapf` of tropmodel.c (the default, non-`IERS_MODEL` build): guards
the height range and delegates to `nmf`.  Output convention as in `nmf`. -/
def tropmapf (time : gtime_t) (lat lon hgt az el : ℝ) (wantWet : Bool) : ℝ × Option ℝ :=
  if hgt < -1000 ∨ 20000 < hgt then (0, if wantWet then some 0 else none)
  else nmf time lat lon hgt az el wantWet

/-- `tropmodel` of tropmodel.c: standard atmosphere + Saastamoinen slant
delay.  Arguments are the flattened `pos` (`lat`, `lon`, `h`) and `azel`
(`az`, `el`) arrays together with the relative humidity. -/
def tropmodel (time : gtime_t) (lat lon h az el humi : ℝ) : ℝ :=
  if h < -100 ∨ 10000 < h ∨ el ≤ 0 then 0
  else
    let temp0 : ℝ := 15
    let hgt := if h < 0 then 0 else h
    let pres := 1013.25 * (1 - 2.2557e-5 * hgt) ^ (5.2568 : ℝ)
    let temp := temp0 - 6.5e-3 * hgt + 273.16
    let e := 6.108 * humi * Real.exp ((17.15 * temp - 4684) / (temp - 38.45))
    let z := Real.pi / 2 - el
    let trph := 0.0022768 * pres /
        (1 - 0.00266 * Real.cos (2 * lat) - 0.00028 * hgt / 1000) / Real.cos z
    let trpw := 0.002277 * (1255 / temp + 0.05) * e / Real.cos z
    trph + trpw

/-- Variant of `tropmodel` that follows the spec's words for claim C1: "the
raw (possibly negative) height still feeds the hydrostatic correction
denominator term", i.e. the `0.00028·h/1000` term uses the raw height `h`
while the atmosphere profile uses the clamped height. -/
def tropmodelSpecRawDenom (time : gtime_t) (lat lon h az el humi : ℝ) : ℝ :=
  if h < -100 ∨ 10000 < h ∨ el ≤ 0 then 0
  else
    let temp0 : ℝ := 15
    let hgt := if h < 0 then 0 else h
    let pres := 1013.25 * (1 - 2.2557e-5 * hgt) ^ (5.2568 : ℝ)
    let temp := temp0 - 6.5e-3 * hgt + 273.16
    let e := 6.108 * humi * Real.exp ((17.15 * temp - 4684) / (temp - 38.45))
    let z := Real.pi / 2 - el
    let trph := 0.0022768 * pres /
        (1 - 0.00266 * Real.cos (2 * lat) - 0.00028 * h / 1000) / Real.cos z
    let trpw := 0.002277 * (1255 / temp + 0.05) * e / Real.cos z
    trph + trpw

/-- Latitude-band interpolation as claim C5 words it: the band index
`⌊lat / 15⌋` is clamped to `[1, 4]` and the two-point blending formula is
applied with the clamped index. -/
def interpcSpecClamped (coef : Fin 5 → ℝ) (lat : ℝ) : ℝ :=
  get5 coef (max 1 (min 4 ⌊lat / 15⌋) - 1) * (1 - lat / 15 + (max 1 (min 4 ⌊lat / 15⌋) : ℝ)) +
    get5 coef (max 1 (min 4 ⌊lat / 15⌋)) * (lat / 15 - (max 1 (min 4 ⌊lat / 15⌋) : ℝ))


/-- C2: for every input with height < -100 or height > 10000 or elevation ≤ 0,
`tropmodel` returns exactly 0, independently of the time, humidity, latitude,
longitude and azimuth arguments (which are universally quantified here). -/
theorem c2_domain_guard_zero (time : gtime_t) (lat lon h az el humi : ℝ)
    (hdom : h < -100 ∨ 10000 < h ∨ el ≤ 0) :
    tropmodel time lat lon h az el humi = 0 := by
  unfold tropmodel
  exact if_pos hdom

/-- Witness for C2 at height 20000. -/
theorem c2_witness : tropmodel ⟨3⟩ 1 2 20000 4 (1/2) (7/10) = 0 :=
  c2_domain_guard_zero ⟨3⟩ 1 2 20000 4 (1/2) (7/10) (Or.inr (Or.inl (by norm_num)))

/-- C3: for every input with elevation ≤ 0, or height outside [-1000, 20000]
(the height bound being checked by the wrapper `tropmapf` itself), `tropmapf`
returns a dry factor of 0 and stores 0 as the wet factor. -/
theorem c3_mapping_guard_zero (time : gtime_t) (lat lon h az el : ℝ)
    (hdom : el ≤ 0 ∨ h < -1000 ∨ 20000 < h) :
    tropmapf time lat lon h az el true = (0, some 0) := by
  unfold tropmapf nmf
  rcases hdom with hel | hh | hh
  · by_cases h1 : h < -1000 ∨ 20000 < h
    · rw [if_pos h1]; simp
    · rw [if_neg h1, if_pos hel]; simp
  · rw [if_pos (Or.inl hh)]; simp
  · rw [if_pos (Or.inr hh)]; simp

/-- Witness for C3 at elevation -1/2. -/
theorem c3_witness : tropmapf ⟨5⟩ 1 2 100 3 (-1/2) true = (0, some 0) :=
  c3_mapping_guard_zero ⟨5⟩ 1 2 100 3 (-1/2) (Or.inl (by norm_num))

/-- C9: for every elevation in (0, pi/2], the continued-fraction mapping form
with all three coefficients zero reduces exactly to the cosecant. -/
theorem c9_mapf_degenerate_cosecant (el : ℝ) (h1 : 0 < el) (h2 : el ≤ Real.pi / 2) :
    mapf el 0 0 0 = 1 / Real.sin el := by
  unfold mapf
  norm_num

/-- Witness for C9 at elevation pi/2. -/
theorem c9_witness : mapf (Real.pi / 2) 0 0 0 = 1 / Real.sin (Real.pi / 2) :=
  c9_mapf_degenerate_cosecant (Real.pi / 2) (by positivity) le_rfl

/-- C10: calling `tropmapf` with a null wet-output pointer returns the same
dry mapping factor as with a non-null pointer, and nothing is stored. -/
theorem c10_null_wet_pointer (time : gtime_t) (lat lon h az el : ℝ) :
    (tropmapf time lat lon h az el false).1 = (tropmapf time lat lon h az el true).1 ∧
      (tropmapf time lat lon h az el false).2 = none := by
  unfold tropmapf nmf
  by_cases h1 : h < -1000 ∨ 20000 < h
  · rw [if_pos h1, if_pos h1]
    simp
  · rw [if_neg h1, if_neg h1]
    by_cases h2 : el ≤ 0
    · rw [if_pos h2, if_pos h2]
      simp
    · rw [if_neg h2, if_neg h2]
      simp

/-- C1 (amended): for every height in [-100, 0) the clamp to max(h, 0)
applies to every use of the height in `tropmodel` - the atmosphere profile
and the hydrostatic denominator term alike - so the delay equals the delay
computed at height 0. -/
theorem c1_clamp_applies_everywhere (time : gtime_t) (lat lon h az el humi : ℝ)
    (h1 : -100 ≤ h) (h2 : h < 0) :
    tropmodel time lat lon h az el humi = tropmodel time lat lon 0 az el humi := by
  unfold tropmodel
  by_cases hel : el ≤ 0
  · rw [if_pos (Or.inr (Or.inr hel)), if_pos (Or.inr (Or.inr hel))]
  · have hg1 : ¬(h < -100 ∨ 10000 < h ∨ el ≤ 0) := by
      push_neg
      exact ⟨h1, by linarith, lt_of_not_le hel⟩
    have hg2 : ¬((0 : ℝ) < -100 ∨ (10000 : ℝ) < 0 ∨ el ≤ 0) := by
      push_neg
      exact ⟨by norm_num, by norm_num, lt_of_not_le hel⟩
    rw [if_neg hg1, if_neg hg2]
    simp only [if_pos h2, if_neg (lt_irrefl (0 : ℝ))]

/-- Witness for the amended C1 at height -50. -/
theorem c1_witness :
    tropmodel ⟨6⟩ 1 2 (-50) 3 (1/2) (1/4) = tropmodel ⟨6⟩ 1 2 0 3 (1/2) (1/4) :=
  c1_clamp_applies_everywhere ⟨6⟩ 1 2 (-50) 3 (1/2) (1/4) (by norm_num) (by norm_num)

/-- Counterexample to C1 as stated: at height -100 (within [-100, 0)) the
code's delay differs from the spec's variant in which the raw height feeds
the hydrostatic denominator term, because the code uses the clamped height
there as well. -/
theorem c1_counterexample :
    tropmodel ⟨0⟩ 0 0 (-100) 0 (Real.pi / 2) 0 ≠
      tropmodelSpecRawDenom ⟨0⟩ 0 0 (-100) 0 (Real.pi / 2) 0 := by
  have hpi : (0 : ℝ) < Real.pi / 2 := by positivity
  have hg : ¬((-100 : ℝ) < -100 ∨ (10000 : ℝ) < -100 ∨ Real.pi / 2 ≤ 0) := by
    push_neg
    exact ⟨le_rfl, by norm_num, hpi⟩
  unfold tropmodel tropmodelSpecRawDenom
  rw [if_neg hg, if_neg hg]
  norm_num [Real.one_rpow, Real.cos_zero]


-- helper: interpc below the table (index < 1) returns the first entry
lemma interpc_eq_left {coef : Fin 5 → ℝ} {lat : ℝ} (hl : lat < 15) :
    interpc coef lat = coef 0 := by
  unfold interpc
  rw [if_pos]
  unfold ctrunc
  split_ifs with h0
  · have : ⌊lat / 15⌋ < 1 := Int.floor_lt.mpr (by norm_num; linarith)
    omega
  · have : ⌈lat / 15⌉ ≤ 0 := Int.ceil_le.mpr (by push_cast; nlinarith [lt_of_not_le h0])
    omega

-- helper: interpc beyond the table (index > 4) returns the last entry
lemma interpc_eq_right {coef : Fin 5 → ℝ} {lat : ℝ} (hl : 75 ≤ lat) :
    interpc coef lat = coef 4 := by
  unfold interpc
  have h5 : (5 : ℤ) ≤ ⌊lat / 15⌋ := Int.le_floor.mpr (by push_cast; linarith)
  have hc : ctrunc (lat / 15) = ⌊lat / 15⌋ := if_pos (by positivity)
  rw [hc, if_neg (by omega), if_pos (by omega)]

-- helper: interpc in band returns the blending formula with i = ⌊lat/15⌋
lemma interpc_eq_formula {coef : Fin 5 → ℝ} {lat : ℝ} (h1 : 15 ≤ lat) (h2 : lat < 75) :
    interpc coef lat =
      get5 coef (⌊lat / 15⌋ - 1) * (1 - lat / 15 + (⌊lat / 15⌋ : ℝ)) +
        get5 coef ⌊lat / 15⌋ * (lat / 15 - (⌊lat / 15⌋ : ℝ)) := by
  unfold interpc
  have hc : ctrunc (lat / 15) = ⌊lat / 15⌋ := if_pos (by positivity)
  have hlo : (1 : ℤ) ≤ ⌊lat / 15⌋ := Int.le_floor.mpr (by push_cast; linarith)
  have hhi : ⌊lat / 15⌋ < 5 := Int.floor_lt.mpr (by push_cast; linarith)
  rw [hc, if_neg (by omega), if_neg (by omega)]

/-- C6: latitude-band interpolation clamps at the table extremes - lat = 0
gives the same coefficients as lat = 15, lat = 90 the same as lat = 75, and
beyond the extremes the boundary row entry is returned unchanged. -/
theorem c6_interpolation_clamped (coef : Fin 5 → ℝ) :
    interpc coef 0 = interpc coef 15 ∧ interpc coef 90 = interpc coef 75 ∧
      (∀ lat : ℝ, lat < 15 → interpc coef lat = coef 0) ∧
      (∀ lat : ℝ, 75 ≤ lat → interpc coef lat = coef 4) := by
  refine ⟨?_, ?_, fun lat hl => interpc_eq_left hl, fun lat hl => interpc_eq_right hl⟩
  · rw [interpc_eq_left (by norm_num)]
    rw [interpc_eq_formula (le_refl 15) (by norm_num)]
    norm_num [get5]
  · rw [interpc_eq_right (by norm_num : (75:ℝ) ≤ 90), interpc_eq_right (le_refl 75)]

/-- Witness for C6 on a concrete row, below and above the extremes. -/
theorem c6_witness :
    interpc ![1, 2, 3, 4, 5] 0 = interpc ![1, 2, 3, 4, 5] 15 ∧
      interpc ![1, 2, 3, 4, 5] 7 = ![1, 2, 3, 4, 5] 0 ∧
      interpc ![(1:ℝ), 2, 3, 4, 5] 80 = ![(1:ℝ), 2, 3, 4, 5] 4 :=
  ⟨(c6_interpolation_clamped _).1,
    (c6_interpolation_clamped _).2.2.1 7 (by norm_num),
    (c6_interpolation_clamped _).2.2.2 80 (by norm_num)⟩

/-- Counterexample to C5 as stated: at lat = 0 with row (0,1,0,0,0) the code
returns coef[0] = 0 while the clamped-index blending formula of the claim
would give 2*coef[0] - coef[1] = -1. -/
theorem c5_counterexample :
    interpc ![0, 1, 0, 0, 0] 0 ≠ interpcSpecClamped ![0, 1, 0, 0, 0] 0 := by
  rw [interpc_eq_left (by norm_num)]
  unfold interpcSpecClamped
  norm_num [get5]

/-- C5 (amended): the blending formula with band index i = floor(lat/15)
holds exactly when that index lands in [1, 4] (15 ≤ lat < 75); outside that
range the boundary entry coef[0] (below) or coef[4] (above) is returned
directly instead of the formula at a clamped index. -/
theorem c5_band_interpolation (coef : Fin 5 → ℝ) (lat : ℝ) :
    (15 ≤ lat → lat < 75 →
      interpc coef lat =
        get5 coef (⌊lat / 15⌋ - 1) * (1 - lat / 15 + (⌊lat / 15⌋ : ℝ)) +
          get5 coef ⌊lat / 15⌋ * (lat / 15 - (⌊lat / 15⌋ : ℝ))) ∧
      (lat < 15 → interpc coef lat = coef 0) ∧
      (75 ≤ lat → interpc coef lat = coef 4) :=
  ⟨fun h1 h2 => interpc_eq_formula h1 h2,
    fun hl => interpc_eq_left hl,
    fun hl => interpc_eq_right hl⟩

/-- Witness for the amended C5 at lat = 20. -/
theorem c5_witness :
    interpc ![(1:ℝ), 2, 3, 4, 5] 20 =
      get5 ![(1:ℝ), 2, 3, 4, 5] (⌊(20:ℝ) / 15⌋ - 1) * (1 - (20:ℝ) / 15 + (⌊(20:ℝ) / 15⌋ : ℝ)) +
        get5 ![(1:ℝ), 2, 3, 4, 5] ⌊(20:ℝ) / 15⌋ * ((20:ℝ) / 15 - (⌊(20:ℝ) / 15⌋ : ℝ)) :=
  (c5_band_interpolation ![(1:ℝ), 2, 3, 4, 5] 20).1 (by norm_num) (by norm_num)


-- closed form of tropmodel on its valid domain, with cos(pi/2 - el) folded to sin el
lemma tropmodel_eq (time : gtime_t) (lat lon h az el humi : ℝ)
    (h1 : -100 ≤ h) (h2 : h ≤ 10000) (hel : 0 < el) :
    tropmodel time lat lon h az el humi =
      (0.0022768 * (1013.25 * (1 - 2.2557e-5 * (if h < 0 then 0 else h)) ^ (5.2568 : ℝ)) /
          (1 - 0.00266 * Real.cos (2 * lat) - 0.00028 * (if h < 0 then 0 else h) / 1000) +
        0.002277 * (1255 / (15 - 6.5e-3 * (if h < 0 then 0 else h) + 273.16) + 0.05) *
          (6.108 * humi * Real.exp ((17.15 * (15 - 6.5e-3 * (if h < 0 then 0 else h) + 273.16) - 4684) /
            (15 - 6.5e-3 * (if h < 0 then 0 else h) + 273.16 - 38.45)))) / Real.sin el := by
  have hg : ¬(h < -100 ∨ 10000 < h ∨ el ≤ 0) := by
    push_neg
    exact ⟨h1, h2, hel⟩
  unfold tropmodel
  simp only [if_neg hg, Real.cos_pi_div_two_sub]
  rw [div_add_div_same]

/-- C7: with time, latitude, longitude, azimuth, humidity ≥ 0 and height in
[-100, 10000] fixed, the delay returned by `tropmodel` strictly increases as
the elevation decreases toward zero within (0, pi/2]. -/
theorem c7_delay_monotone_in_elevation (time : gtime_t) (lat lon h az humi el1 el2 : ℝ)
    (hh1 : -100 ≤ h) (hh2 : h ≤ 10000) (hhumi : 0 ≤ humi)
    (he1 : 0 < el1) (he12 : el1 < el2) (he2 : el2 ≤ Real.pi / 2) :
    tropmodel time lat lon h az el2 humi < tropmodel time lat lon h az el1 humi := by
  have hpi := Real.pi_pos
  rw [tropmodel_eq time lat lon h az el1 humi hh1 hh2 he1,
      tropmodel_eq time lat lon h az el2 humi hh1 hh2 (lt_trans he1 he12)]
  set hgt := (if h < 0 then 0 else h) with hgt_def
  have hg0 : 0 ≤ hgt := by
    rw [hgt_def]
    split_ifs with hc
    · exact le_rfl
    · exact le_of_not_lt hc
  have hg1 : hgt ≤ 10000 := by
    rw [hgt_def]
    split_ifs with hc
    · norm_num
    · exact hh2
  have hpres : 0 < 1013.25 * (1 - 2.2557e-5 * hgt) ^ (5.2568 : ℝ) :=
    mul_pos (by norm_num) (Real.rpow_pos_of_pos (by nlinarith) _)
  have hden : 0 < 1 - 0.00266 * Real.cos (2 * lat) - 0.00028 * hgt / 1000 := by
    nlinarith [Real.cos_le_one (2 * lat), Real.neg_one_le_cos (2 * lat)]
  have hA : 0 < 0.0022768 * (1013.25 * (1 - 2.2557e-5 * hgt) ^ (5.2568 : ℝ)) /
      (1 - 0.00266 * Real.cos (2 * lat) - 0.00028 * hgt / 1000) :=
    div_pos (by nlinarith) hden
  have hT : (0 : ℝ) < 15 - 6.5e-3 * hgt + 273.16 := by nlinarith
  have hB : 0 ≤ 0.002277 * (1255 / (15 - 6.5e-3 * hgt + 273.16) + 0.05) *
      (6.108 * humi * Real.exp ((17.15 * (15 - 6.5e-3 * hgt + 273.16) - 4684) /
        (15 - 6.5e-3 * hgt + 273.16 - 38.45))) := by
    have h1255 : (0 : ℝ) < 1255 / (15 - 6.5e-3 * hgt + 273.16) := div_pos (by norm_num) hT
    have hexp := Real.exp_pos ((17.15 * (15 - 6.5e-3 * hgt + 273.16) - 4684) /
        (15 - 6.5e-3 * hgt + 273.16 - 38.45))
    have := mul_nonneg (mul_nonneg (by norm_num : (0:ℝ) ≤ 6.108) hhumi) hexp.le
    nlinarith
  have hs1 : 0 < Real.sin el1 :=
    Real.sin_pos_of_pos_of_lt_pi he1 (by linarith)
  have hslt : Real.sin el1 < Real.sin el2 :=
    Real.strictMonoOn_sin ⟨by linarith, by linarith⟩ ⟨by linarith, he2⟩ he12
  exact div_lt_div_of_pos_left (by linarith) hs1 hslt

/-- Witness for C7 at elevations pi/4 < pi/2. -/
theorem c7_witness :
    tropmodel ⟨9⟩ 1 2 0 3 (Real.pi / 2) (1/2) < tropmodel ⟨9⟩ 1 2 0 3 (Real.pi / 4) (1/2) :=
  c7_delay_monotone_in_elevation ⟨9⟩ 1 2 0 3 (1/2) (Real.pi / 4) (Real.pi / 2)
    (by norm_num) (by norm_num) (by norm_num) (by positivity)
    (by nlinarith [Real.pi_pos]) le_rfl


/-- C8: in `nmf` the hydrostatic coefficients are the interpolated averages
minus the interpolated seasonal amplitudes times cos(2*pi*y) with seasonal
phase y = (dayOfYear - 28)/365.25 (+0.5 for southern latitudes), while the
wet coefficients are the interpolated averages only and the wet mapping
factor is independent of the time argument. -/
theorem c8_seasonal_structure (t t' : gtime_t) (lat lon h az el : ℝ) (hel : 0 < el) :
    (nmf t lat lon h az el true).1 =
      mapf el
        (interpc coefNMF0 |lat * R2D| - interpc coefNMF3 |lat * R2D| *
          Real.cos (2 * Real.pi * ((time2doy t - 28) / 365.25 + (if lat * R2D < 0 then 0.5 else 0))))
        (interpc coefNMF1 |lat * R2D| - interpc coefNMF4 |lat * R2D| *
          Real.cos (2 * Real.pi * ((time2doy t - 28) / 365.25 + (if lat * R2D < 0 then 0.5 else 0))))
        (interpc coefNMF2 |lat * R2D| - interpc coefNMF5 |lat * R2D| *
          Real.cos (2 * Real.pi * ((time2doy t - 28) / 365.25 + (if lat * R2D < 0 then 0.5 else 0)))) +
        (1 / Real.sin el - mapf el 2.53e-5 5.49e-3 1.14e-3) * h / 1000 ∧
    (nmf t lat lon h az el true).2 =
      some (mapf el (interpc coefNMF6 |lat * R2D|) (interpc coefNMF7 |lat * R2D|)
        (interpc coefNMF8 |lat * R2D|)) ∧
    (nmf t lat lon h az el true).2 = (nmf t' lat lon h az el true).2 := by
  have hg : ¬(el ≤ 0) := not_le.mpr hel
  unfold nmf
  rw [if_neg hg]
  exact ⟨rfl, by simp, by simp [hg]⟩

/-- Witness for C8: the wet output for two different epochs agrees. -/
theorem c8_witness :
    (nmf ⟨100⟩ 1 0 0 0 1 true).2 = (nmf ⟨200⟩ 1 0 0 0 1 true).2 :=
  (c8_seasonal_structure ⟨100⟩ ⟨200⟩ 1 0 0 0 1 (by norm_num)).2.2


lemma interpc_nonneg {coef : Fin 5 → ℝ} (hc : ∀ j, 0 ≤ coef j) {lat : ℝ} (hl : 0 ≤ lat) :
    0 ≤ interpc coef lat := by
  unfold interpc
  rw [show ctrunc (lat / 15) = ⌊lat / 15⌋ from if_pos (by positivity)]
  split_ifs with h1 h2
  · exact hc 0
  · exact hc 4
  · have hfl : (⌊lat / 15⌋ : ℝ) ≤ lat / 15 := Int.floor_le _
    have hfu : lat / 15 < ⌊lat / 15⌋ + 1 := Int.lt_floor_add_one _
    exact add_nonneg (mul_nonneg (hc _) (by linarith)) (mul_nonneg (hc _) (by linarith))

lemma interpc_sub (f g : Fin 5 → ℝ) (lat : ℝ) :
    interpc (fun j => f j - g j) lat = interpc f lat - interpc g lat := by
  unfold interpc get5
  split_ifs <;> simp <;> ring

lemma ah_nonneg {avg amp : Fin 5 → ℝ} (hamp : ∀ j, 0 ≤ amp j)
    (hsub : ∀ j, 0 ≤ avg j - amp j) {lat cosy : ℝ} (hl : 0 ≤ lat) (hcosy : cosy ≤ 1) :
    0 ≤ interpc avg lat - interpc amp lat * cosy := by
  have h0 : 0 ≤ interpc amp lat := interpc_nonneg hamp hl
  have h1 : interpc amp lat * cosy ≤ interpc amp lat * 1 :=
    mul_le_mul_of_nonneg_left hcosy h0
  have h2 : 0 ≤ interpc (fun j => avg j - amp j) lat := interpc_nonneg hsub hl
  rw [interpc_sub] at h2
  linarith

lemma mapf_pos {el a b c : ℝ} (hs : 0 < Real.sin el) (ha : 0 ≤ a) (hb : 0 ≤ b) (hc : 0 ≤ c) :
    0 < mapf el a b c := by
  unfold mapf
  have d1 : 0 < Real.sin el + c := by linarith
  have d2 : 0 < Real.sin el + b / (Real.sin el + c) :=
    add_pos_of_pos_of_nonneg hs (div_nonneg hb d1.le)
  have d3 : 0 < Real.sin el + a / (Real.sin el + b / (Real.sin el + c)) :=
    add_pos_of_pos_of_nonneg hs (div_nonneg ha d2.le)
  have n1 : (0 : ℝ) < 1 + c := by linarith
  have n2 : (0 : ℝ) < 1 + b / (1 + c) :=
    add_pos_of_pos_of_nonneg one_pos (div_nonneg hb n1.le)
  have n3 : (0 : ℝ) < 1 + a / (1 + b / (1 + c)) :=
    add_pos_of_pos_of_nonneg one_pos (div_nonneg ha n2.le)
  exact div_pos n3 d3

lemma mapf_le_one_div_sin {el a b c : ℝ} (hs : 0 < Real.sin el) (hs1 : Real.sin el ≤ 1)
    (ha : 0 ≤ a) (hb : 0 ≤ b) (hc : 0 ≤ c) :
    mapf el a b c ≤ 1 / Real.sin el := by
  unfold mapf
  set s := Real.sin el with hsdef
  have d1 : 0 < s + c := by linarith
  have d2 : 0 < s + b / (s + c) := add_pos_of_pos_of_nonneg hs (div_nonneg hb d1.le)
  have d3 : 0 < s + a / (s + b / (s + c)) :=
    add_pos_of_pos_of_nonneg hs (div_nonneg ha d2.le)
  have n1 : (0 : ℝ) < 1 + c := by linarith
  have n2 : (0 : ℝ) < 1 + b / (1 + c) :=
    add_pos_of_pos_of_nonneg one_pos (div_nonneg hb n1.le)
  rw [div_le_div_iff₀ d3 hs]
  have hkey : s * (s + b / (s + c)) ≤ 1 + b / (1 + c) := by
    have hb1 : s * (b / (s + c)) ≤ b / (1 + c) := by
      rw [mul_div_assoc', div_le_div_iff₀ d1 n1]
      nlinarith [mul_nonneg (mul_nonneg hb hc) (sub_nonneg.mpr hs1)]
    nlinarith
  have h5 : s * (a / (1 + b / (1 + c))) ≤ a / (s + b / (s + c)) := by
    rw [mul_div_assoc', div_le_div_iff₀ n2 d2]
    nlinarith [mul_le_mul_of_nonneg_left hkey ha]
  nlinarith

lemma coefNMF3_nonneg : ∀ j : Fin 5, 0 ≤ coefNMF3 j := by
  intro j; fin_cases j <;> norm_num [coefNMF3]

lemma coefNMF4_nonneg : ∀ j : Fin 5, 0 ≤ coefNMF4 j := by
  intro j; fin_cases j <;> norm_num [coefNMF4]

lemma coefNMF5_nonneg : ∀ j : Fin 5, 0 ≤ coefNMF5 j := by
  intro j; fin_cases j <;> norm_num [coefNMF5]

lemma coefNMF03_nonneg : ∀ j : Fin 5, 0 ≤ coefNMF0 j - coefNMF3 j := by
  intro j; fin_cases j <;> norm_num [coefNMF0, coefNMF3]

lemma coefNMF14_nonneg : ∀ j : Fin 5, 0 ≤ coefNMF1 j - coefNMF4 j := by
  intro j; fin_cases j <;> norm_num [coefNMF1, coefNMF4]

lemma coefNMF25_nonneg : ∀ j : Fin 5, 0 ≤ coefNMF2 j - coefNMF5 j := by
  intro j; fin_cases j <;> norm_num [coefNMF2, coefNMF5]

lemma coefNMF6_nonneg : ∀ j : Fin 5, 0 ≤ coefNMF6 j := by
  intro j; fin_cases j <;> norm_num [coefNMF6]

lemma coefNMF7_nonneg : ∀ j : Fin 5, 0 ≤ coefNMF7 j := by
  intro j; fin_cases j <;> norm_num [coefNMF7]

lemma coefNMF8_nonneg : ∀ j : Fin 5, 0 ≤ coefNMF8 j := by
  intro j; fin_cases j <;> norm_num [coefNMF8]

/-- C4 (amended): for elevation in (0, pi/2] and height in [-1000, 20000],
the wet mapping factor stored by `tropmapf` is always ≥ 0, and the dry
mapping factor is ≥ 0 whenever the height is additionally nonnegative. -/
theorem c4_factors_nonneg (t : gtime_t) (lat lon h az el : ℝ)
    (h1 : 0 < el) (h2 : el ≤ Real.pi / 2) (h3 : -1000 ≤ h) (h4 : h ≤ 20000) :
    (∀ w, (tropmapf t lat lon h az el true).2 = some w → 0 ≤ w) ∧
      (0 ≤ h → 0 ≤ (tropmapf t lat lon h az el true).1) := by
  have hg : ¬(h < -1000 ∨ 20000 < h) := by
    push_neg
    exact ⟨h3, h4⟩
  have hel : ¬(el ≤ 0) := not_le.mpr h1
  unfold tropmapf nmf
  rw [if_neg hg, if_neg hel]
  have hs : 0 < Real.sin el :=
    Real.sin_pos_of_pos_of_lt_pi h1 (by linarith [Real.pi_pos])
  have hs1 : Real.sin el ≤ 1 := Real.sin_le_one el
  have habs : 0 ≤ |lat * R2D| := abs_nonneg _
  set cy := Real.cos (2 * Real.pi *
    ((time2doy t - 28) / 365.25 + (if lat * R2D < 0 then 0.5 else 0))) with cy_def
  have hcy : cy ≤ 1 := Real.cos_le_one _
  have hah0 := ah_nonneg coefNMF3_nonneg coefNMF03_nonneg habs hcy
  have hah1 := ah_nonneg coefNMF4_nonneg coefNMF14_nonneg habs hcy
  have hah2 := ah_nonneg coefNMF5_nonneg coefNMF25_nonneg habs hcy
  have haw0 := interpc_nonneg coefNMF6_nonneg habs
  have haw1 := interpc_nonneg coefNMF7_nonneg habs
  have haw2 := interpc_nonneg coefNMF8_nonneg habs
  constructor
  · intro w hw
    simp only [if_true, Option.some.injEq] at hw
    rw [← hw]
    exact (mapf_pos hs haw0 haw1 haw2).le
  · intro hh
    have hdm : 0 ≤ (1 / Real.sin el - mapf el 2.53e-5 5.49e-3 1.14e-3) * h / 1000 :=
      div_nonneg (mul_nonneg (sub_nonneg.mpr
        (mapf_le_one_div_sin hs hs1 (by norm_num) (by norm_num) (by norm_num))) hh)
        (by norm_num)
    exact add_nonneg (mapf_pos hs hah0 hah1 hah2).le hdm

/-- Witness for the amended C4 at elevation 1 and height 0. -/
theorem c4_factors_witness :
    (∀ w, (tropmapf ⟨28⟩ 0 0 0 0 1 true).2 = some w → 0 ≤ w) ∧
      (0 ≤ (tropmapf ⟨28⟩ 0 0 0 0 1 true).1) := by
  have h := c4_factors_nonneg ⟨28⟩ 0 0 0 0 1 (by norm_num)
    (by nlinarith [Real.pi_gt_three]) (by norm_num) (by norm_num)
  exact ⟨h.1, h.2 le_rfl⟩


-- reduction of the C4 counterexample input to a closed expression
lemma c4cex_key :
    (tropmapf ⟨28⟩ 0 0 (-1000) 0 (1/5000) true).1 =
      mapf (1/5000) 1.2769934e-3 2.9153695e-3 62.610505e-3 +
        (1 / Real.sin (1/5000) - mapf (1/5000) 2.53e-5 5.49e-3 1.14e-3) * (-1000) / 1000 := by
  have hg : ¬((-1000 : ℝ) < -1000 ∨ (20000 : ℝ) < -1000) := by norm_num
  have hel : ¬((1/5000 : ℝ) ≤ 0) := by norm_num
  unfold tropmapf nmf
  rw [if_neg hg, if_neg hel]
  norm_num [time2doy, interpc_eq_left, Real.cos_zero,
    coefNMF0, coefNMF1, coefNMF2, coefNMF3, coefNMF4, coefNMF5, Matrix.cons_val_zero]



lemma c4cex_sin_bounds :
    0 < Real.sin (1/5000 : ℝ) ∧ Real.sin (1/5000 : ℝ) < 1/5000 ∧
      (0.000199999 : ℝ) < Real.sin (1/5000 : ℝ) := by
  have h0 : (0 : ℝ) < 1/5000 := by norm_num
  have hcube := Real.sin_gt_sub_cube h0 (by norm_num)
  norm_num at hcube
  refine ⟨Real.sin_pos_of_pos_of_lt_pi h0 (by nlinarith [Real.pi_gt_three]),
    Real.sin_lt h0, by linarith⟩

lemma c4cex_mapf_h_lt :
    mapf (1/5000) 1.2769934e-3 2.9153695e-3 62.610505e-3 < 37 := by
  obtain ⟨hs0, hsU, hsL⟩ := c4cex_sin_bounds
  unfold mapf
  set s := Real.sin (1/5000 : ℝ)
  have d1 : (0:ℝ) < s + 62.610505e-3 := by linarith
  have u1 : 2.9153695e-3 / (s + 62.610505e-3) ≤ 2.9153695e-3 / 62.610505e-3 :=
    div_le_div_of_nonneg_left (by norm_num) (by norm_num) (by linarith)
  have u1v : (2.9153695e-3 : ℝ) / 62.610505e-3 < 0.0466 := by norm_num
  have u2 : s + 2.9153695e-3 / (s + 62.610505e-3) < 0.047 := by linarith
  have d2 : (0:ℝ) < s + 2.9153695e-3 / (s + 62.610505e-3) :=
    add_pos_of_pos_of_nonneg hs0 (div_nonneg (by norm_num) d1.le)
  have u3 : (1.2769934e-3 : ℝ) / 0.047 ≤
      1.2769934e-3 / (s + 2.9153695e-3 / (s + 62.610505e-3)) :=
    div_le_div_of_nonneg_left (by norm_num) d2 u2.le
  have u3v : (0.0271 : ℝ) < (1.2769934e-3 : ℝ) / 0.047 := by norm_num
  have hN : (1 : ℝ) + 1.2769934e-3 / (1 + 2.9153695e-3 / (1 + 62.610505e-3)) < 1.002 := by
    norm_num
  have d3 : (0.0271 : ℝ) < s + 1.2769934e-3 / (s + 2.9153695e-3 / (s + 62.610505e-3)) := by
    linarith
  rw [div_lt_iff₀ (by linarith)]
  linarith

lemma c4cex_mapf_a_lt :
    mapf (1/5000) 2.53e-5 5.49e-3 1.14e-3 < 4880 := by
  obtain ⟨hs0, hsU, hsL⟩ := c4cex_sin_bounds
  unfold mapf
  set s := Real.sin (1/5000 : ℝ)
  have d1 : (0:ℝ) < s + 1.14e-3 := by linarith
  have u1 : 5.49e-3 / (s + 1.14e-3) ≤ 5.49e-3 / 1.14e-3 :=
    div_le_div_of_nonneg_left (by norm_num) (by norm_num) (by linarith)
  have u1v : (5.49e-3 : ℝ) / 1.14e-3 < 4.8158 := by norm_num
  have u2 : s + 5.49e-3 / (s + 1.14e-3) < 4.816 := by linarith
  have d2 : (0:ℝ) < s + 5.49e-3 / (s + 1.14e-3) :=
    add_pos_of_pos_of_nonneg hs0 (div_nonneg (by norm_num) d1.le)
  have u3 : (2.53e-5 : ℝ) / 4.816 ≤ 2.53e-5 / (s + 5.49e-3 / (s + 1.14e-3)) :=
    div_le_div_of_nonneg_left (by norm_num) d2 u2.le
  have u3v : (0.00000525 : ℝ) < (2.53e-5 : ℝ) / 4.816 := by norm_num
  have hN : (1 : ℝ) + 2.53e-5 / (1 + 5.49e-3 / (1 + 1.14e-3)) < 1.000026 := by norm_num
  have d3 : (0.000205 : ℝ) < s + 2.53e-5 / (s + 5.49e-3 / (s + 1.14e-3)) := by linarith
  rw [div_lt_iff₀ (by linarith)]
  linarith

/-- Counterexample to C4 as stated: at elevation 1/5000 rad and height -1000
(inside the claimed valid-geometry domain) the height correction drives the
dry mapping factor returned by `tropmapf` strictly below zero. -/
theorem c4_counterexample :
    0 < (1/5000 : ℝ) ∧ (-1000 : ℝ) ≤ -1000 ∧ (-1000 : ℝ) ≤ 20000 ∧
      (tropmapf ⟨28⟩ 0 0 (-1000) 0 (1/5000) true).1 < 0 := by
  refine ⟨by norm_num, le_rfl, by norm_num, ?_⟩
  rw [c4cex_key]
  obtain ⟨hs0, hsU, hsL⟩ := c4cex_sin_bounds
  have hinv : (5000 : ℝ) < 1 / Real.sin (1/5000 : ℝ) := by
    rw [lt_div_iff₀ hs0]
    linarith
  have hMh := c4cex_mapf_h_lt
  have hMa := c4cex_mapf_a_lt
  have hexp : mapf (1/5000) 1.2769934e-3 2.9153695e-3 62.610505e-3 +
      (1 / Real.sin (1/5000) - mapf (1/5000) 2.53e-5 5.49e-3 1.14e-3) * (-1000) / 1000 =
      mapf (1/5000) 1.2769934e-3 2.9153695e-3 62.610505e-3 +
        mapf (1/5000) 2.53e-5 5.49e-3 1.14e-3 - 1 / Real.sin (1/5000) := by
    ring
  rw [hexp]
  linarith

end LeoPos

end
